import Mathlib

/-
Shallow embedding of the VentureCRM pipeline (src/first.py).

The program fetches a web page, strips script/style markup, asks a
completion service for a JSON array of VC-firm objects, and persists the
records to a SQLite table `vc_firms`.  The embedding below models:

  * JSON values as produced by `json.loads` (integers stand in for JSON
    numbers; floats do not occur in any claim);
  * the SQLite store as an optional table (absent before
    `CREATE TABLE IF NOT EXISTS vc_firms`, present after), holding the
    autoincrement counter and the rows in rowid order — SQLite assigns
    increasing rowids and an unordered `SELECT` scans a rowid table in
    rowid order, which is also insertion order here;
  * each Python function by a pure Lean function: external effects
    (the HTTP response, the completion reply together with its
    `json.loads` outcome, the clock reading `datetime.utcnow()`)
    become explicit inputs, raised exceptions become `Except` errors,
    and text written by `print` is returned as data alongside the
    Python return value (`None` is `Option.none`);
  * an uncommitted SQLite transaction: `insert_vc_records` calls
    `conn.commit()` only after the whole loop, so when some
    `cursor.execute` or `record.get` raises mid-loop the pending inserts
    are rolled back and the persisted state is unchanged.
-/

/-- A JSON value as decoded by `json.loads`.  Object fields are an
association list with distinct keys (Python dict); numbers are modelled
as integers, which covers every value the claims mention. -/
inductive Json where
  | null
  | bool (b : Bool)
  | num (n : Int)
  | str (s : String)
  | arr (elems : List Json)
  | obj (fields : List (String × Json))

/-- Python `record.get(key, "")` on a decoded JSON object: the value of
the first matching key, or the empty string when the key is absent. -/
def objGet (fields : List (String × Json)) (key : String) : Json :=
  match fields.find? (fun p => p.1 == key) with
  | some p => p.2
  | none => Json.str ""

/-- The four values `insert_vc_records` reads from one record
(src/first.py lines 113-116) before binding them into the INSERT. -/
structure RecordFields where
  name : Json
  location : Json
  website : Json
  focus : Json

/-- Reading the four fields of one record.  Python `record.get` only
exists on dicts: a non-object record raises (AttributeError), modelled
as `none`. -/
def rowOf : Json → Option RecordFields
  | .obj fields =>
      some ⟨objGet fields "Name", objGet fields "Location",
            objGet fields "Website", objGet fields "Focus"⟩
  | _ => none

/-- Whether Python `sqlite3` can bind a decoded JSON value as an SQL
parameter: `None`, `bool` (an `int` subclass), `str`, and `int` within
the signed 64-bit range bind; an `int` beyond 64 bits raises
`OverflowError`, and a `list` or `dict` value is an unsupported type
(`InterfaceError`/`ProgrammingError`). -/
def bindable : Json → Bool
  | .null => true
  | .bool _ => true
  | .num n => decide (-(2 ^ 63) ≤ n ∧ n < 2 ^ 63)
  | .str _ => true
  | .arr _ => false
  | .obj _ => false

/-- Whether all four values read from a record can be bound into the
INSERT statement. -/
def bindableFields (q : RecordFields) : Bool :=
  bindable q.name && bindable q.location && bindable q.website && bindable q.focus

/-- Whether one loop iteration succeeds on a record: `record.get`
requires an object, and `cursor.execute` must be able to bind the four
values it reads. -/
def insertable (r : Json) : Bool :=
  match rowOf r with
  | none => false
  | some q => bindableFields q

/-- One row of the `vc_firms` table: the autoincrement primary key, the
four data columns, and `last_updated`.  SQLite is dynamically typed, so
the data columns hold the bound (bindable) JSON values as-is. -/
structure Row where
  id : Nat
  name : Json
  location : Json
  website : Json
  focus : Json
  last_updated : String

/-- The `vc_firms` table: the next autoincrement id and the rows in
rowid (= insertion) order. -/
structure Table where
  nextId : Nat
  rows : List Row

/-- The SQLite database file: `table? = none` before the table has been
created, `some t` afterwards. -/
structure DB where
  table? : Option Table

/-- `initialize_database` (src/first.py lines 86-101):
`CREATE TABLE IF NOT EXISTS vc_firms (...)` — creates the empty table
with the autoincrement counter starting at 1 when it is absent, and is
a no-op when it exists.  The statement cannot fail, so the model is a
total function. -/
def initialize_database (db : DB) : DB :=
  match db.table? with
  | none => ⟨some ⟨1, []⟩⟩
  | some _ => db

/-- Errors raised inside `insert_vc_records` / `query_all_vc_records`:
`noSuchTable` when the `vc_firms` table does not exist, `badRecord` when
`record.get` is called on a non-object record (AttributeError), and
`unbindableValue` when `cursor.execute` cannot bind a field value as an
SQL parameter (InterfaceError/ProgrammingError for a list or dict,
OverflowError for an int beyond 64 bits). -/
inductive StoreError where
  | noSuchTable
  | badRecord
  | unbindableValue
deriving DecidableEq

/-- The console line `insert_vc_records` prints on success
(src/first.py line 121). -/
def insertMsg (n : Nat) : String :=
  "Inserted " ++ toString n ++ " records into the database."

/-- Normal completion of `insert_vc_records`: the Python function has no
return statement, so `returned` is always `none`; `printed` is the
console report. -/
structure InsertOk where
  returned : Option Nat
  printed : String

/-- The `for record in vc_records` loop (src/first.py lines 108-118)
acting on the open transaction: each iteration reads the four fields
(fails on a non-object record), binds them as SQL parameters (fails on
a list/dict value or an out-of-range int), and executes the INSERT,
appending a row with the next autoincrement id and the shared timestamp
`now`. -/
def runInserts (now : String) : Table → List Json → Except StoreError Table
  | t, [] => .ok t
  | t, r :: rs =>
      match rowOf r with
      | none => .error .badRecord
      | some q =>
          if bindableFields q then
            runInserts now
              ⟨t.nextId + 1,
               t.rows ++ [⟨t.nextId, q.name, q.location, q.website, q.focus, now⟩]⟩
              rs
          else .error .unbindableValue

/-- `insert_vc_records` (src/first.py lines 103-121).  `now` is the
single clock reading `datetime.utcnow().isoformat()` taken before the
loop (line 107).  `conn.commit()` runs only after the loop, so on any
mid-loop error the transaction is never committed and the persisted
database is unchanged.  With an absent table an empty loop still
commits fine, while the first `cursor.execute` fails; the four
`record.get` calls are evaluated before that `execute`, so a non-object
first record fails as `badRecord` even without the table, whereas
`execute` prepares the statement (failing with "no such table") before
binding parameters, so unbindable values are not reached there. -/
def insert_vc_records (records : List Json) (now : String) (db : DB) :
    DB × Except StoreError InsertOk :=
  match db.table? with
  | none =>
      match records with
      | [] => (db, .ok ⟨none, insertMsg 0⟩)
      | r :: _ =>
          match rowOf r with
          | none => (db, .error .badRecord)
          | some _ => (db, .error .noSuchTable)
  | some t =>
      match runInserts now t records with
      | .error e => (db, .error e)
      | .ok t2 => (⟨some t2⟩, .ok ⟨none, insertMsg records.length⟩)

/-- Normal completion of `query_all_vc_records`: `rows` is the result of
`cursor.fetchall()` (which the function prints); the Python function has
no return statement, so `returned` is always `none`. -/
structure QueryOk where
  rows : List Row
  returned : Option (List Row)

/-- `query_all_vc_records` (src/first.py lines 123-132):
`SELECT id, name, location, website, focus, last_updated FROM vc_firms`
fetches every row (in rowid scan order), prints them, returns `None`.
Without the table the SELECT raises. -/
def query_all_vc_records (db : DB) : Except StoreError QueryOk :=
  match db.table? with
  | none => .error .noSuchTable
  | some t => .ok ⟨t.rows, none⟩

/-- The candidate rows built from the `record.get` reads of a list of
records, starting at autoincrement id `i` with shared timestamp `now`
(stopping at the first non-object record, where `record.get` raises):
exactly the rows a successful loop appends. -/
def rowsFrom (i : Nat) (now : String) : List Json → List Row
  | [] => []
  | r :: rs =>
      match rowOf r with
      | none => []
      | some q => ⟨i, q.name, q.location, q.website, q.focus, now⟩ :: rowsFrom (i + 1) now rs

/-- The HTTP response `requests.get` hands back: status code and body
text. -/
structure HttpResponse where
  status_code : Nat
  text : String
deriving DecidableEq

/-- The exception `fetch_web_page` raises on a non-200 status:
`Exception(f"Error fetching \x7burl\x7d: \x7bresponse.status_code\x7d")`
carries the URL and the status code. -/
structure FetchError where
  url : String
  status_code : Nat
deriving DecidableEq

/-- The message string of the raised exception. -/
def FetchError.message (e : FetchError) : String :=
  "Error fetching " ++ e.url ++ ": " ++ toString e.status_code

/-- `fetch_web_page` (src/first.py lines 25-31): one GET request (the
response is the explicit input; no retry exists in the code), raising
unless the status is exactly 200, and otherwise returning the raw body
text. -/
def fetch_web_page (url : String) (response : HttpResponse) :
    Except FetchError String :=
  if response.status_code ≠ 200 then .error ⟨url, response.status_code⟩
  else .ok response.text

mutual
/-- A node of the parsed markup tree built by BeautifulSoup: a text node
or an element with a tag and children. -/
inductive HtmlNode where
  | text (s : String)
  | elem (tag : String) (children : HtmlForest)
/-- A sequence of sibling nodes. -/
inductive HtmlForest where
  | nil
  | cons (head : HtmlNode) (tail : HtmlForest)
end

mutual
/-- `soup(["script", "style"])` + `script.decompose()`
(src/first.py lines 37-38): removing every script/style element,
subtree included. -/
def stripNode : HtmlNode → Option HtmlNode
  | .text s => some (.text s)
  | .elem tag cs =>
      if tag == "script" || tag == "style" then none
      else some (.elem tag (stripForest cs))
/-- `decompose` over a sibling sequence. -/
def stripForest : HtmlForest → HtmlForest
  | .nil => .nil
  | .cons h t =>
      match stripNode h with
      | none => stripForest t
      | some h2 => .cons h2 (stripForest t)
end

mutual
/-- The text fragments `get_text` serializes, in document order. -/
def nodeTexts : HtmlNode → List String
  | .text s => [s]
  | .elem _ cs => forestTexts cs
/-- Fragments of a sibling sequence. -/
def forestTexts : HtmlForest → List String
  | .nil => []
  | .cons h t => nodeTexts h ++ forestTexts t
end

/-- `parse_html_to_text` (src/first.py lines 33-39): decompose all
script/style elements, then `soup.get_text(separator="\n")`, i.e. the
remaining text fragments joined by newlines. -/
def parse_html_to_text (doc : HtmlForest) : String :=
  String.intercalate "\n" (forestTexts (stripForest doc))

mutual
/-- Specification-side reading: the text fragments of the document that
do not lie inside any script or style element. -/
def nodeTextsOutside : HtmlNode → List String
  | .text s => [s]
  | .elem tag cs =>
      if tag == "script" || tag == "style" then []
      else forestTextsOutside cs
/-- Outside-fragments of a sibling sequence. -/
def forestTextsOutside : HtmlForest → List String
  | .nil => []
  | .cons h t => nodeTextsOutside h ++ forestTextsOutside t
end

/-- A completion-service reply as `extract_vc_data` sees it: the raw
text (src/first.py line 73) paired with the outcome of `json.loads` on
it — `none` when the reply is not valid JSON.  The stdlib parser itself
is outside the repository; only its outcome matters to the code. -/
structure CompletionReply where
  raw : String
  parsed : Option Json

/-- The failure of `extract_vc_data`: the parse exception is re-raised
after the raw reply has been printed for diagnosis. -/
inductive ExtractError where
  | decodeFailed (raw : String)
deriving DecidableEq

/-- `extract_vc_data`, decode part (src/first.py lines 73-80):
`vc_list = json.loads(reply)` inside try/except — on parse failure the
raw reply is printed and the exception re-raised; on success the parsed
value is returned as-is, whatever its shape. -/
def extract_vc_data (reply : CompletionReply) : Except ExtractError Json :=
  match reply.parsed with
  | some v => .ok v
  | none => .error (.decodeFailed reply.raw)

/-- The shape the spec demands of a successful decode: a JSON array
whose elements are all objects. -/
def isArrayOfObjects : Json → Bool
  | .arr elems =>
      elems.all fun e =>
        match e with
        | .obj _ => true
        | _ => false
  | _ => false

/-! ### Helper lemmas about the insertion loop -/

/-- With well-formed records the loop builds one row per record. -/
theorem rowsFrom_length (now : String) :
    ∀ (rs : List Json) (i : Nat), (∀ r ∈ rs, (rowOf r).isSome) →
      (rowsFrom i now rs).length = rs.length := by
  intro rs
  induction rs with
  | nil => intro i _; rfl
  | cons r rs ih =>
      intro i h
      have hr := h r (List.mem_cons_self r rs)
      cases hq : rowOf r with
      | none => rw [hq] at hr; simp at hr
      | some q =>
          simp only [rowsFrom, hq, List.length_cons]
          rw [ih (i + 1) (fun x hx => h x (List.mem_cons_of_mem _ hx))]

/-- Every row the loop builds carries the shared timestamp `now`. -/
theorem rowsFrom_last_updated (now : String) :
    ∀ (rs : List Json) (i : Nat) (row : Row),
      row ∈ rowsFrom i now rs → row.last_updated = now := by
  intro rs
  induction rs with
  | nil => intro i row hmem; simp [rowsFrom] at hmem
  | cons r rs ih =>
      intro i row hmem
      cases hq : rowOf r with
      | none => simp [rowsFrom, hq] at hmem
      | some q =>
          simp only [rowsFrom, hq, List.mem_cons] at hmem
          rcases hmem with hrow | hrow
          · rw [hrow]
          · exact ih (i + 1) row hrow

/-- Ids assigned by the loop start at the autoincrement counter. -/
theorem rowsFrom_id_le (now : String) :
    ∀ (rs : List Json) (i : Nat) (row : Row),
      row ∈ rowsFrom i now rs → i ≤ row.id := by
  intro rs
  induction rs with
  | nil => intro i row hmem; simp [rowsFrom] at hmem
  | cons r rs ih =>
      intro i row hmem
      cases hq : rowOf r with
      | none => simp [rowsFrom, hq] at hmem
      | some q =>
          simp only [rowsFrom, hq, List.mem_cons] at hmem
          rcases hmem with hrow | hrow
          · rw [hrow]
          · exact Nat.le_of_succ_le (ih (i + 1) row hrow)

/-- The loop assigns strictly increasing ids. -/
theorem rowsFrom_pairwise (now : String) :
    ∀ (rs : List Json) (i : Nat),
      (rowsFrom i now rs).Pairwise (fun a b => a.id < b.id) := by
  intro rs
  induction rs with
  | nil => intro i; simp [rowsFrom]
  | cons r rs ih =>
      intro i
      cases hq : rowOf r with
      | none => simp [rowsFrom, hq]
      | some q =>
          simp only [rowsFrom, hq]
          refine List.Pairwise.cons ?_ (ih (i + 1))
          intro b hb
          exact Nat.lt_of_succ_le (rowsFrom_id_le now rs (i + 1) b hb)

/-- An insertable record is a JSON object whose four field reads can be
bound as SQL parameters. -/
theorem rowOf_of_insertable (r : Json) (h : insertable r = true) :
    ∃ q, rowOf r = some q ∧ bindableFields q = true := by
  unfold insertable at h
  cases hq : rowOf r with
  | none => rw [hq] at h; cases h
  | some q => rw [hq] at h; exact ⟨q, rfl, h⟩

/-- An insertable record is in particular a JSON object. -/
theorem isSome_of_insertable (r : Json) (h : insertable r = true) :
    (rowOf r).isSome := by
  rcases rowOf_of_insertable r h with ⟨q, hq, _⟩
  rw [hq]; rfl

/-- Closed form of the loop on insertable records: it appends exactly
the rows of `rowsFrom` and advances the autoincrement counter. -/
theorem runInserts_ok (now : String) :
    ∀ (rs : List Json) (t : Table), (∀ r ∈ rs, insertable r = true) →
      runInserts now t rs =
        .ok ⟨t.nextId + rs.length, t.rows ++ rowsFrom t.nextId now rs⟩ := by
  intro rs
  induction rs with
  | nil => intro t _; cases t; simp [runInserts, rowsFrom]
  | cons r rs ih =>
      intro t h
      rcases rowOf_of_insertable r (h r (List.mem_cons_self r rs)) with ⟨q, hq, hb⟩
      simp only [runInserts, hq, hb, if_true, rowsFrom]
      rw [ih _ (fun x hx => h x (List.mem_cons_of_mem _ hx))]
      simp [List.append_assoc]
      omega

/-- When some record is malformed the loop raises. -/
theorem runInserts_error (now : String) :
    ∀ (rs : List Json) (t : Table), (∃ r ∈ rs, rowOf r = none) →
      ∃ e, runInserts now t rs = .error e := by
  intro rs
  induction rs with
  | nil => intro t h; simp at h
  | cons r rs ih =>
      intro t h
      cases hq : rowOf r with
      | none => exact ⟨.badRecord, by simp [runInserts, hq]⟩
      | some q =>
          cases hb : bindableFields q with
          | false => exact ⟨.unbindableValue, by simp [runInserts, hq, hb]⟩
          | true =>
              rcases h with ⟨r0, hmem, hr0⟩
              rcases List.mem_cons.mp hmem with hr | hr
              · rw [hr, hq] at hr0; cases hr0
              · rcases ih ⟨t.nextId + 1,
                    t.rows ++ [⟨t.nextId, q.name, q.location, q.website, q.focus, now⟩]⟩
                    ⟨r0, hr, hr0⟩ with ⟨e, he⟩
                exact ⟨e, by simp only [runInserts, hq, hb, if_true]; exact he⟩

/-- Whatever the batch, a loop that completes has appended rows all
carrying the shared timestamp `now`. -/
theorem runInserts_rows (now : String) :
    ∀ (rs : List Json) (t t2 : Table), runInserts now t rs = .ok t2 →
      ∃ added, t2.rows = t.rows ++ added ∧
        ∀ row ∈ added, row.last_updated = now := by
  intro rs
  induction rs with
  | nil =>
      intro t t2 hr
      simp only [runInserts, Except.ok.injEq] at hr
      exact ⟨[], by rw [← hr]; simp, by simp⟩
  | cons r rs ih =>
      intro t t2 hr
      cases hq : rowOf r with
      | none => simp [runInserts, hq] at hr
      | some q =>
          cases hb : bindableFields q with
          | false => simp [runInserts, hq, hb] at hr
          | true =>
              simp only [runInserts, hq, hb, if_true] at hr
              rcases ih _ t2 hr with ⟨added, hrows, hts⟩
              refine ⟨⟨t.nextId, q.name, q.location, q.website, q.focus, now⟩ :: added,
                ?_, ?_⟩
              · rw [hrows]; simp [List.append_assoc]
              · intro row hrow
                rcases List.mem_cons.mp hrow with rfl | hrow
                · rfl
                · exact hts row hrow


/-! ### Helper lemmas about script/style stripping -/

mutual
/-- Decomposing a node keeps exactly the text fragments that lie outside
script/style elements. -/
theorem stripNode_texts (n : HtmlNode) :
    (match stripNode n with
     | none => ([] : List String)
     | some m => nodeTexts m) = nodeTextsOutside n := by
  cases n with
  | text s => rfl
  | elem tag cs =>
      cases htag : (tag == "script" || tag == "style") with
      | true => simp [stripNode, nodeTextsOutside, htag]
      | false =>
          simp [stripNode, nodeTextsOutside, htag, nodeTexts,
            stripForest_texts cs]
/-- Decomposing a sibling sequence keeps exactly the fragments outside
script/style elements. -/
theorem stripForest_texts (f : HtmlForest) :
    forestTexts (stripForest f) = forestTextsOutside f := by
  cases f with
  | nil => rfl
  | cons h t =>
      have hn := stripNode_texts h
      cases hs : stripNode h with
      | none =>
          rw [hs] at hn
          simp only [stripForest, hs, forestTextsOutside, ← hn,
            List.nil_append]
          exact stripForest_texts t
      | some m =>
          rw [hs] at hn
          simp only [stripForest, hs, forestTexts, forestTextsOutside, ← hn]
          rw [stripForest_texts t]
end


/-! ### Claims -/

/-- Claim C1, counterexample: the reply `"42"` parses as the JSON number
42, which is not an array of objects, yet `extract_vc_data` returns it
as a successful result instead of failing — the code performs no shape
check after `json.loads`. -/
theorem extract_accepts_non_array :
    isArrayOfObjects (Json.num 42) = false ∧
    extract_vc_data ⟨"42", some (Json.num 42)⟩ = .ok (Json.num 42) :=
  ⟨rfl, rfl⟩

/-- Claim C1, amended: `extract_vc_data` fails (re-raising the parse
error with the raw reply) exactly when the reply is not valid JSON; any
reply that parses as JSON — number, string, single object or array —
is returned as-is, with no validation of its shape. -/
theorem extract_parse_passthrough (raw : String) (v : Json) :
    extract_vc_data ⟨raw, some v⟩ = .ok v ∧
    extract_vc_data ⟨raw, none⟩ = .error (.decodeFailed raw) :=
  ⟨rfl, rfl⟩

/-- Claim C5: `fetch_web_page` returns the raw body text when the HTTP
status is exactly 200, and for any other status fails with an error
carrying both the status code and the URL (one request, no retry). -/
theorem fetch_web_page_status (url : String) (response : HttpResponse) :
    (response.status_code = 200 → fetch_web_page url response = .ok response.text) ∧
    (response.status_code ≠ 200 →
      fetch_web_page url response = .error ⟨url, response.status_code⟩) := by
  constructor
  · intro h
    simp [fetch_web_page, h]
  · intro h
    simp [fetch_web_page, h]

/-- Claim C5, witness at status 200 and status 404. -/
theorem fetch_web_page_status_witness :
    fetch_web_page "http://example.com" ⟨200, "body"⟩ = .ok "body" ∧
    fetch_web_page "http://example.com" ⟨404, "nf"⟩ =
      .error ⟨"http://example.com", 404⟩ :=
  ⟨(fetch_web_page_status "http://example.com" ⟨200, "body"⟩).1 rfl,
   (fetch_web_page_status "http://example.com" ⟨404, "nf"⟩).2 (by decide)⟩

/-- Claim C6: `parse_html_to_text` serializes exactly the text fragments
lying outside every script/style element — all script and style nodes
are removed before text serialization, so their contents contribute
nothing to the output. -/
theorem parse_html_to_text_strips_script_style (doc : HtmlForest) :
    parse_html_to_text doc = String.intercalate "\n" (forestTextsOutside doc) := by
  unfold parse_html_to_text
  rw [stripForest_texts]

/-- Claim C7: `initialize_database` is idempotent — a second call is a
no-op (the model is a total function, so no exception is raised), and
on an already-initialized store the call changes neither the schema nor
the stored rows. -/
theorem initialize_database_idempotent (db : DB) :
    initialize_database (initialize_database db) = initialize_database db ∧
    (∀ t, db.table? = some t → initialize_database db = db) := by
  cases db with
  | mk tab =>
      cases tab with
      | none => exact ⟨rfl, by intro t h; cases h⟩
      | some t => exact ⟨rfl, fun _ _ => rfl⟩

/-- Claim C7, witness: double initialization on a store already holding
one row keeps the row. -/
theorem initialize_database_idempotent_witness :
    initialize_database (initialize_database
        ⟨some ⟨2, [⟨1, Json.str "A", Json.str "B", Json.str "C", Json.str "D", "t0"⟩]⟩⟩) =
      initialize_database
        ⟨some ⟨2, [⟨1, Json.str "A", Json.str "B", Json.str "C", Json.str "D", "t0"⟩]⟩⟩ ∧
    initialize_database
        ⟨some ⟨2, [⟨1, Json.str "A", Json.str "B", Json.str "C", Json.str "D", "t0"⟩]⟩⟩ =
      ⟨some ⟨2, [⟨1, Json.str "A", Json.str "B", Json.str "C", Json.str "D", "t0"⟩]⟩⟩ :=
  ⟨(initialize_database_idempotent
      ⟨some ⟨2, [⟨1, Json.str "A", Json.str "B", Json.str "C", Json.str "D", "t0"⟩]⟩⟩).1,
   (initialize_database_idempotent
      ⟨some ⟨2, [⟨1, Json.str "A", Json.str "B", Json.str "C", Json.str "D", "t0"⟩]⟩⟩).2
     ⟨2, [⟨1, Json.str "A", Json.str "B", Json.str "C", Json.str "D", "t0"⟩]⟩ rfl⟩


/-- Claim C2: when the reply parses as a JSON array whose elements are
all objects, `extract_vc_data` succeeds with exactly that array (one
record per element, so the insertion loop writes `elems.length` rows),
and the four fields Name/Location/Website/Focus read from each record
are always defined, defaulting to the empty string whenever the key is
absent in the reply object. -/
theorem extract_array_count_and_field_defaults (raw : String) (elems : List Json)
    (h : ∀ e ∈ elems, ∃ fs, e = Json.obj fs) :
    extract_vc_data ⟨raw, some (.arr elems)⟩ = .ok (.arr elems) ∧
    (∀ (i : Nat) (now : String), (rowsFrom i now elems).length = elems.length) ∧
    (∀ e ∈ elems, ∀ fs, e = Json.obj fs →
      rowOf e = some ⟨objGet fs "Name", objGet fs "Location",
                      objGet fs "Website", objGet fs "Focus"⟩ ∧
      ∀ k, fs.find? (fun p => p.1 == k) = none → objGet fs k = Json.str "") := by
  refine ⟨rfl, ?_, ?_⟩
  · intro i now
    apply rowsFrom_length
    intro r hr
    rcases h r hr with ⟨fs, rfl⟩
    rfl
  · intro e _ fs hefs
    subst hefs
    refine ⟨rfl, ?_⟩
    intro k hk
    simp [objGet, hk]

/-- Claim C2, witness: a two-element array, the second object having no
keys at all. -/
theorem extract_array_count_and_field_defaults_witness :
    extract_vc_data ⟨"r", some (.arr [Json.obj [("Name", Json.str "Acme Ventures")],
        Json.obj []])⟩ =
      .ok (.arr [Json.obj [("Name", Json.str "Acme Ventures")], Json.obj []]) ∧
    (∀ (i : Nat) (now : String),
      (rowsFrom i now [Json.obj [("Name", Json.str "Acme Ventures")],
        Json.obj []]).length =
        [Json.obj [("Name", Json.str "Acme Ventures")], Json.obj []].length) ∧
    (∀ e ∈ [Json.obj [("Name", Json.str "Acme Ventures")], Json.obj []],
      ∀ fs, e = Json.obj fs →
      rowOf e = some ⟨objGet fs "Name", objGet fs "Location",
                      objGet fs "Website", objGet fs "Focus"⟩ ∧
      ∀ k, fs.find? (fun p => p.1 == k) = none → objGet fs k = Json.str "") :=
  extract_array_count_and_field_defaults "r"
    [Json.obj [("Name", Json.str "Acme Ventures")], Json.obj []]
    (by
      intro e he
      simp only [List.mem_cons, List.not_mem_nil, or_false] at he
      rcases he with rfl | rfl
      · exact ⟨[("Name", Json.str "Acme Ventures")], rfl⟩
      · exact ⟨[], rfl⟩)

/-- Claim C10: the row built from a record depends only on the values
read for the four keys Name/Location/Website/Focus; two record objects
agreeing on those four lookups produce the same row fields (any extra
keys are ignored), and feed the insertion loop identically apart from
the id and timestamp it supplies. -/
theorem row_depends_only_on_four_keys (fs1 fs2 : List (String × Json))
    (h : ∀ k ∈ ["Name", "Location", "Website", "Focus"],
      objGet fs1 k = objGet fs2 k) :
    rowOf (Json.obj fs1) = rowOf (Json.obj fs2) ∧
    ∀ (i : Nat) (now : String),
      rowsFrom i now [Json.obj fs1] = rowsFrom i now [Json.obj fs2] := by
  have h1 := h "Name" (by simp)
  have h2 := h "Location" (by simp)
  have h3 := h "Website" (by simp)
  have h4 := h "Focus" (by simp)
  constructor
  · simp [rowOf, h1, h2, h3, h4]
  · intro i now
    simp [rowsFrom, rowOf, h1, h2, h3, h4]

/-- Claim C10, witness: an extra key `Extra` does not change the row. -/
theorem row_depends_only_on_four_keys_witness :
    rowOf (Json.obj [("Name", Json.str "Acme"), ("Extra", Json.num 5)]) =
      rowOf (Json.obj [("Name", Json.str "Acme")]) ∧
    ∀ (i : Nat) (now : String),
      rowsFrom i now [Json.obj [("Name", Json.str "Acme"), ("Extra", Json.num 5)]] =
        rowsFrom i now [Json.obj [("Name", Json.str "Acme")]] :=
  row_depends_only_on_four_keys
    [("Name", Json.str "Acme"), ("Extra", Json.num 5)]
    [("Name", Json.str "Acme")]
    (by
      intro k hk
      simp only [List.mem_cons, List.not_mem_nil, or_false] at hk
      rcases hk with rfl | rfl | rfl | rfl <;> rfl)

/-- Claim C3, counterexample: for the one-record batch below the Python
function writes the row and prints "Inserted 1 records ...", but —
having no return statement — returns `None`, not the count 1. -/
theorem insert_vc_records_returns_none :
    (insert_vc_records [Json.obj [("Name", Json.str "Acme")]]
        "2025-01-01T00:00:00" ⟨some ⟨1, []⟩⟩).2 =
      .ok ⟨none, "Inserted 1 records into the database."⟩ ∧
    (none : Option Nat) ≠ some 1 :=
  ⟨rfl, by decide⟩

/-- Claim C3, amended: `insert_vc_records` writes one row per record of
an insertable batch (each record an object whose four field values
sqlite3 can bind) and prints the count of rows written (equal to the
length of the input sequence); the function itself returns `None`
rather than the count. -/
theorem insert_writes_row_per_record_and_prints_count
    (records : List Json) (now : String) (t : Table)
    (h : ∀ r ∈ records, insertable r = true) :
    ∃ t2, insert_vc_records records now ⟨some t⟩ =
        (⟨some t2⟩, .ok ⟨none, insertMsg records.length⟩) ∧
      t2.rows.length = t.rows.length + records.length := by
  refine ⟨⟨t.nextId + records.length, t.rows ++ rowsFrom t.nextId now records⟩, ?_, ?_⟩
  · simp [insert_vc_records, runInserts_ok now records t h]
  · simp [rowsFrom_length now records t.nextId
      (fun r hr => isSome_of_insertable r (h r hr))]

/-- Claim C3 (amended), witness: inserting two records into a store
already holding one row. -/
theorem insert_writes_row_per_record_and_prints_count_witness :
    ∃ t2 : Table, insert_vc_records [Json.obj [("Name", Json.str "A")], Json.obj []]
        "t1" ⟨some ⟨2, [⟨1, Json.str "Old", Json.str "", Json.str "",
          Json.str "", "t0"⟩]⟩⟩ =
        (⟨some t2⟩,
         .ok ⟨none, insertMsg [Json.obj [("Name", Json.str "A")], Json.obj []].length⟩) ∧
      t2.rows.length =
        ([⟨1, Json.str "Old", Json.str "", Json.str "", Json.str "", "t0"⟩] : List Row).length +
          [Json.obj [("Name", Json.str "A")], Json.obj []].length :=
  insert_writes_row_per_record_and_prints_count
    [Json.obj [("Name", Json.str "A")], Json.obj []] "t1"
    ⟨2, [⟨1, Json.str "Old", Json.str "", Json.str "", Json.str "", "t0"⟩]⟩
    (by
      intro r hr
      simp only [List.mem_cons, List.not_mem_nil, or_false] at hr
      rcases hr with rfl | rfl <;> rfl)


/-- Claim C4: for every non-empty batch handed to one insert call on an
initialized store — well-formed or not, bindable or not — the single
clock reading `now` (taken once, before the loop, src/first.py line
107) is the `last_updated` value of every row that call wrote: whatever
state the call leaves, the rows it added all carry `now` (a failing
call adds none). -/
theorem insert_batch_shares_single_timestamp
    (records : List Json) (now : String) (t t2 : Table)
    (_hne : records ≠ [])
    (h : (insert_vc_records records now ⟨some t⟩).1 = ⟨some t2⟩) :
    ∃ added, t2.rows = t.rows ++ added ∧
      ∀ row ∈ added, row.last_updated = now := by
  cases hrun : runInserts now t records with
  | error e =>
      have h2 : t = t2 := by
        have h3 := h
        simp only [insert_vc_records, hrun, DB.mk.injEq, Option.some.injEq] at h3
        exact h3
      subst h2
      exact ⟨[], by simp, by simp⟩
  | ok t3 =>
      have h2 : t3 = t2 := by
        have h3 := h
        simp only [insert_vc_records, hrun, DB.mk.injEq, Option.some.injEq] at h3
        exact h3
      subst h2
      exact runInserts_rows now records t t3 hrun

/-- Claim C4, witness: a two-record batch shares the timestamp "t1". -/
theorem insert_batch_shares_single_timestamp_witness :
    ∃ added,
      (⟨3, [⟨1, Json.str "A", Json.str "", Json.str "", Json.str "", "t1"⟩,
            ⟨2, Json.str "", Json.str "", Json.str "", Json.str "", "t1"⟩]⟩ : Table).rows =
        ([] : List Row) ++ added ∧
      ∀ row ∈ added, row.last_updated = "t1" :=
  insert_batch_shares_single_timestamp
    [Json.obj [("Name", Json.str "A")], Json.obj []] "t1" ⟨1, []⟩
    ⟨3, [⟨1, Json.str "A", Json.str "", Json.str "", Json.str "", "t1"⟩,
         ⟨2, Json.str "", Json.str "", Json.str "", Json.str "", "t1"⟩]⟩
    (by simp)
    rfl


/-- Claim C8, counterexample: after inserting one record,
`query_all_vc_records` fetches (and prints) the single stored row, but —
having no return statement — the Python function returns `None`, not
the records. -/
theorem query_all_vc_records_returns_none :
    query_all_vc_records
        (insert_vc_records [Json.obj [("Name", Json.str "Acme")]] "ts"
            ⟨some ⟨1, []⟩⟩).1 =
      .ok ⟨[⟨1, Json.str "Acme", Json.str "", Json.str "", Json.str "", "ts"⟩], none⟩ ∧
    (none : Option (List Row)) ≠
      some [⟨1, Json.str "Acme", Json.str "", Json.str "", Json.str "", "ts"⟩] :=
  ⟨rfl, by simp⟩

/-- Claim C8, amended: on an initialized store whose rows have ids below
the autoincrement counter and ascend by id, inserting an insertable
batch (each record an object with sqlite3-bindable field values) and
immediately running `query_all_vc_records` fetches (and prints — the
Python function returns `None`) exactly the pre-existing rows followed
by the inserted ones: one row per record, ids assigned and strictly
ascending across the whole result, and the identical batch timestamp on
every inserted row. -/
theorem insert_then_query_all
    (records : List Json) (now : String) (t : Table)
    (hobj : ∀ r ∈ records, insertable r = true)
    (hlt : ∀ row ∈ t.rows, row.id < t.nextId)
    (hsorted : t.rows.Pairwise (fun a b => a.id < b.id)) :
    ∃ (t2 : Table) (out : QueryOk),
      (insert_vc_records records now ⟨some t⟩).1 = ⟨some t2⟩ ∧
      query_all_vc_records ⟨some t2⟩ = .ok out ∧
      out.returned = none ∧
      out.rows = t.rows ++ rowsFrom t.nextId now records ∧
      (rowsFrom t.nextId now records).length = records.length ∧
      (∀ row ∈ rowsFrom t.nextId now records, row.last_updated = now) ∧
      out.rows.Pairwise (fun a b => a.id < b.id) := by
  refine ⟨⟨t.nextId + records.length, t.rows ++ rowsFrom t.nextId now records⟩,
    ⟨t.rows ++ rowsFrom t.nextId now records, none⟩, ?_, rfl, rfl, rfl,
    rowsFrom_length now records t.nextId
      (fun r hr => isSome_of_insertable r (hobj r hr)),
    fun row hrow => rowsFrom_last_updated now records t.nextId row hrow, ?_⟩
  · simp [insert_vc_records, runInserts_ok now records t hobj]
  · rw [List.pairwise_append]
    refine ⟨hsorted, rowsFrom_pairwise now records t.nextId, ?_⟩
    intro a ha b hb
    exact Nat.lt_of_lt_of_le (hlt a ha) (rowsFrom_id_le now records t.nextId b hb)

/-- Claim C8 (amended), witness: one pre-existing row with id 1, counter
at 2, then one inserted record. -/
theorem insert_then_query_all_witness :
    ∃ (t2 : Table) (out : QueryOk),
      (insert_vc_records [Json.obj [("Name", Json.str "Acme")]] "t1"
          ⟨some ⟨2, [⟨1, Json.str "Old", Json.str "", Json.str "", Json.str "", "t0"⟩]⟩⟩).1 =
        ⟨some t2⟩ ∧
      query_all_vc_records ⟨some t2⟩ = .ok out ∧
      out.returned = none ∧
      out.rows = [⟨1, Json.str "Old", Json.str "", Json.str "", Json.str "", "t0"⟩] ++
        rowsFrom 2 "t1" [Json.obj [("Name", Json.str "Acme")]] ∧
      (rowsFrom 2 "t1" [Json.obj [("Name", Json.str "Acme")]]).length =
        [Json.obj [("Name", Json.str "Acme")]].length ∧
      (∀ row ∈ rowsFrom 2 "t1" [Json.obj [("Name", Json.str "Acme")]],
        row.last_updated = "t1") ∧
      out.rows.Pairwise (fun a b => a.id < b.id) :=
  insert_then_query_all [Json.obj [("Name", Json.str "Acme")]] "t1"
    ⟨2, [⟨1, Json.str "Old", Json.str "", Json.str "", Json.str "", "t0"⟩]⟩
    (by
      intro r hr
      simp only [List.mem_cons, List.not_mem_nil, or_false] at hr
      rcases hr with rfl
      rfl)
    (by
      intro row hrow
      simp only [List.mem_cons, List.not_mem_nil, or_false] at hrow
      rcases hrow with rfl
      exact Nat.one_lt_two)
    (List.pairwise_singleton _ _)

/-- Claim C9: when some element of the batch is not a well-formed record
the loop raises before `conn.commit()`, the transaction is rolled back,
and the persisted store is exactly as it was before the call — no row of
the batch survives, whatever the state of the store. -/
theorem insert_malformed_leaves_db_unchanged
    (records : List Json) (now : String) (db : DB)
    (h : ∃ r ∈ records, rowOf r = none) :
    (insert_vc_records records now db).1 = db ∧
    ∃ e, (insert_vc_records records now db).2 = .error e := by
  cases db with
  | mk tab =>
      cases tab with
      | none =>
          rcases h with ⟨r0, hmem, hr0⟩
          cases records with
          | nil => simp at hmem
          | cons r rs =>
              cases hq : rowOf r with
              | none =>
                  exact ⟨by simp [insert_vc_records, hq],
                    ⟨.badRecord, by simp [insert_vc_records, hq]⟩⟩
              | some q =>
                  exact ⟨by simp [insert_vc_records, hq],
                    ⟨.noSuchTable, by simp [insert_vc_records, hq]⟩⟩
      | some t =>
          rcases runInserts_error now records t h with ⟨e, he⟩
          exact ⟨by simp [insert_vc_records, he],
            ⟨e, by simp [insert_vc_records, he]⟩⟩

/-- Claim C9, witness: a batch whose second element is a bare string
fails and leaves the previously stored row untouched. -/
theorem insert_malformed_leaves_db_unchanged_witness :
    (insert_vc_records [Json.obj [("Name", Json.str "A")], Json.str "oops"] "t1"
        ⟨some ⟨2, [⟨1, Json.str "Old", Json.str "", Json.str "", Json.str "", "t0"⟩]⟩⟩).1 =
      ⟨some ⟨2, [⟨1, Json.str "Old", Json.str "", Json.str "", Json.str "", "t0"⟩]⟩⟩ ∧
    ∃ e, (insert_vc_records [Json.obj [("Name", Json.str "A")], Json.str "oops"] "t1"
        ⟨some ⟨2, [⟨1, Json.str "Old", Json.str "", Json.str "", Json.str "", "t0"⟩]⟩⟩).2 =
      .error e :=
  insert_malformed_leaves_db_unchanged
    [Json.obj [("Name", Json.str "A")], Json.str "oops"] "t1"
    ⟨some ⟨2, [⟨1, Json.str "Old", Json.str "", Json.str "", Json.str "", "t0"⟩]⟩⟩
    ⟨Json.str "oops", by simp, rfl⟩

